import Mathlib

/-!
Shallow embedding of the schedule validation and persistence core of
`src/schedule_window.py` (SmartFurnace).

Modelling notes, stated once here:
* Python strings are modelled over `List Char`; the ASCII fragment of
  Python's `str.strip`, `int(...)` and the `re` digit classes is modelled
  (Unicode digit/whitespace classes are outside the model).
* The regex `TIME_PATTERN = ^(\d{1,2}):([0-5]?\d):([0-5]?\d)$` is modelled
  by splitting on `:` and checking each field's shape; Python's `$` anchor
  also matches just before a single trailing newline, which the model keeps.
* The sqlite database is modelled as an association list from table name to
  table; a `save` call works on a transaction-local copy of the table and
  publishes it only at `conn.commit()`, so an exception raised before the
  commit leaves the durable state unchanged.  Failures of the storage engine
  are injected through a `SaveFaults` record.
* The source file uses `sqlite3` without importing it; the body of
  `save_schedule` is modelled as written, assuming the import, which is how
  the rest of the module and the spec read it.
-/

namespace SmartFurnace

/-- ASCII decimal digit, the ASCII fragment of the regex class `\d`. -/
def isDigitChar (c : Char) : Bool := 48 ≤ c.toNat && c.toNat ≤ 57

/-- Numeric value of an ASCII digit character. -/
def digitVal (c : Char) : Nat := c.toNat - 48

/-- Value of a digit string, as `int(...)` computes it for plain digits. -/
def fieldNat (l : List Char) : Nat := l.foldl (fun a c => 10 * a + digitVal c) 0

/-- ASCII whitespace stripped by Python's `str.strip()`. -/
def isPySpace (c : Char) : Bool :=
  c = ' ' || c = '\t' || c = '\n' || c = '\r' || c = '\x0b' || c = '\x0c'

/-- Python `str.strip()` on the ASCII whitespace set. -/
def pyStrip (l : List Char) : List Char :=
  ((l.dropWhile isPySpace).reverse.dropWhile isPySpace).reverse

/-- `str.strip()` lifted to `String`. -/
def pyStripS (s : String) : String := ⟨pyStrip s.data⟩

/-- Python `str.split(':')`-like field decomposition used to model the
colon-separated structure of `TIME_PATTERN`. -/
def splitColon : List Char → List (List Char)
  | [] => [[]]
  | c :: rest =>
    if c = ':' then [] :: splitColon rest
    else
      match splitColon rest with
      | [] => [[c]]
      | f :: fs => (c :: f) :: fs

/-- Python's `$` anchor: a match may end just before one trailing newline. -/
def stripTrailingNewline (l : List Char) : List Char :=
  match l.getLast? with
  | some c => if c = '\n' then l.dropLast else l
  | none => l

/-- The chunk rule of Python `int()` digit strings: after a leading digit,
underscores may appear only between digits. -/
def digitsTail : List Char → Bool
  | [] => true
  | c :: rest =>
    if c = '_' then
      match rest with
      | [] => false
      | d :: rest2 => isDigitChar d && digitsTail rest2
    else isDigitChar c && digitsTail rest

/-- A valid unsigned digit string for Python `int()`. -/
def digitsOk : List Char → Bool
  | [] => false
  | c :: rest => isDigitChar c && digitsTail rest

/-- Value of an unsigned digit string, ignoring grouping underscores. -/
def natValU (l : List Char) : Nat :=
  l.foldl (fun a c => if c = '_' then a else 10 * a + digitVal c) 0

/-- Python `int(text)` on base-10 text: optional sign, digit string with
underscore grouping; `None` models a raised `ValueError`. -/
def pyIntOfChars (l : List Char) : Option Int :=
  match pyStrip l with
  | '+' :: rest => if digitsOk rest then some ((natValU rest : Nat) : Int) else Option.none
  | '-' :: rest => if digitsOk rest then some (-((natValU rest : Nat) : Int)) else Option.none
  | t => if digitsOk t then some ((natValU t : Nat) : Int) else Option.none

/-- `int(text)` lifted to `String`. -/
def pyIntS (s : String) : Option Int := pyIntOfChars s.data

/-- `l.length == 1 || l.length == 2`: the field widths `\d{1,2}` and the
one-or-two character minute/second fields accept. -/
def lenOneOrTwo (l : List Char) : Bool := l.length == 1 || l.length == 2

namespace ScheduleWindow

/-- Shape of the hours group `\d{1,2}`. -/
def hoursShape (l : List Char) : Bool := lenOneOrTwo l && l.all isDigitChar

/-- Shape of a minutes/seconds group `[0-5]?\d`: one digit, or two digits
whose first is `0`-`5` (48 ≤ code ≤ 53). -/
def msShape : List Char → Bool
  | [c] => isDigitChar c
  | [c1, c2] => (48 ≤ c1.toNat && c1.toNat ≤ 53) && isDigitChar c2
  | _ => false

/-- `TIME_PATTERN.match(s)` (line 27 of the source): on success returns the
numeric values of the three captured groups. -/
def timeMatch (s : String) : Option (Nat × Nat × Nat) :=
  match splitColon (stripTrailingNewline s.data) with
  | [h, m, sec] =>
    if hoursShape h && msShape m && msShape sec then
      some (fieldNat h, fieldNat m, fieldNat sec)
    else Option.none
  | _ => Option.none

/-- `ScheduleWindow.validate_time_format` (source lines 202-236): reject the
empty string, match against `TIME_PATTERN`, convert the groups to integers
and range-check them. -/
def validate_time_format (s : String) : Bool :=
  if s = "" then false
  else
    match timeMatch s with
    | Option.none => false
    | some (h, m, sec) =>
      decide (0 ≤ h) && decide (h ≤ 99) &&
      decide (0 ≤ m) && decide (m ≤ 59) &&
      decide (0 ≤ sec) && decide (sec ≤ 59)

end ScheduleWindow

namespace Constants

/-- Modelled from the spec: `constants.validate_time_format` (module
`constants` is not under `src/`).  Spec §4.1: split on `:`, require exactly
three fields of one or two digits each, and bound-check 0-99 / 0-59 / 0-59. -/
def validate_time_format (s : String) : Bool :=
  match splitColon s.data with
  | [h, m, sec] =>
    lenOneOrTwo h && h.all isDigitChar && decide (fieldNat h ≤ 99) &&
    lenOneOrTwo m && m.all isDigitChar && decide (fieldNat m ≤ 59) &&
    lenOneOrTwo sec && sec.all isDigitChar && decide (fieldNat sec ≤ 59)
  | _ => false

/-- Modelled from the spec: `constants.validate_temperature` (module
`constants` is not under `src/`).  Spec §4.1: fails exactly when the value is
outside `[MIN_TEMP, MAX_TEMP]`; the bounds are external configuration and are
passed as parameters. -/
def validate_temperature (minT maxT v : Int) : Bool :=
  decide (minT ≤ v) && decide (v ≤ maxT)

end Constants

/-- Spec-side restatement of the time-format contract used to check the
source validator against the spec's wording: the string, after discounting
the one trailing newline the regex end anchor tolerates, must consist of
three colon-separated fields of one or two digits with values in range. -/
def specTimeValid (s : String) : Bool :=
  Constants.validate_time_format ⟨stripTrailingNewline s.data⟩

/-- One schedule entry: the dict built by `validate_and_collect_entries`
(keys CycleType / StartTemp / EndTemp / Duration / Notes), which is also the
5-tuple `save_schedule` stores per row. -/
structure ScheduleEntry where
  cycleType : String
  startTemp : Int
  endTemp : Int
  cycleTime : String
  notes : String
  deriving DecidableEq, Repr

/-- One raw table row as `validate_and_collect_entries` sees it.
`broken` models a row whose widget extraction raises an unexpected
exception (caught by the per-row `except Exception` handler); `noWidget`
models a row where one of the four required cell widgets is `None`;
`widgets` carries the widget texts (the notes widget may be absent). -/
inductive TableRow
  | broken
  | noWidget
  | widgets (cycleType startTempText endTempText cycleTimeText : String)
      (notes : Option String)

/-- The rejection the collector reports through its warning dialog, together
with the 0-based index of the offending row (the dialog displays `row + 1`).
The source signals all of these by returning `None`; the constructor records
which message was raised. -/
inductive Rejection
  | invalidTime (row : Nat)
  | invalidTemperatureFormat (row : Nat)
  | invalidTemperature (row : Nat)
  | noValidEntries
  deriving DecidableEq, Repr

/-- Equality of collector results is decidable, so concrete runs can be
checked by evaluation. -/
instance {ε α : Type} [DecidableEq ε] [DecidableEq α] : DecidableEq (Except ε α) :=
  fun x y =>
    match x, y with
    | Except.error a, Except.error b =>
      if h : a = b then isTrue (by rw [h])
      else isFalse (fun he => h (by injection he))
    | Except.ok a, Except.ok b =>
      if h : a = b then isTrue (by rw [h])
      else isFalse (fun he => h (by injection he))
    | Except.error _, Except.ok _ => isFalse (fun he => Except.noConfusion he)
    | Except.ok _, Except.error _ => isFalse (fun he => Except.noConfusion he)

namespace ScheduleWindow

/-- The row loop of `validate_and_collect_entries` (source lines 250-306):
`row` is the loop index, `acc` the `valid_entries` list built so far. -/
def processRows (minT maxT : Int) :
    Nat → List TableRow → List ScheduleEntry → Except Rejection (List ScheduleEntry)
  | _, [], acc => Except.ok acc
  | row, TableRow.broken :: rest, acc =>
      processRows minT maxT (row + 1) rest acc
  | row, TableRow.noWidget :: rest, acc =>
      processRows minT maxT (row + 1) rest acc
  | row, TableRow.widgets ct st et tm notes :: rest, acc =>
      let stS := pyStripS st
      let etS := pyStripS et
      let tmS := pyStripS tm
      let notesS := match notes with
        | some n => pyStripS n
        | Option.none => ""
      if ct = "" ∨ stS = "" ∨ etS = "" ∨ tmS = "" then
        processRows minT maxT (row + 1) rest acc
      else if Constants.validate_time_format tmS then
        match pyIntS stS, pyIntS etS with
        | some a, some b =>
          if Constants.validate_temperature minT maxT a &&
             Constants.validate_temperature minT maxT b then
            processRows minT maxT (row + 1) rest
              (acc ++ [⟨ct, a, b, tmS, notesS⟩])
          else Except.error (Rejection.invalidTemperature row)
        | _, _ => Except.error (Rejection.invalidTemperatureFormat row)
      else Except.error (Rejection.invalidTime row)

/-- `ScheduleWindow.validate_and_collect_entries` (source lines 238-313):
run the row loop from row 0 with an empty accumulator, then reject an empty
result with the no-valid-entries warning. -/
def validate_and_collect_entries (minT maxT : Int) (rows : List TableRow) :
    Except Rejection (List ScheduleEntry) :=
  match processRows minT maxT 0 rows [] with
  | Except.error e => Except.error e
  | Except.ok [] => Except.error Rejection.noValidEntries
  | Except.ok es => Except.ok es

/-- The verdict the loop body reaches on one row, in isolation:
`ok none` = the row is skipped, `ok (some e)` = the row yields entry `e`,
`error ()` = the row makes the whole collection abort. -/
def rowVerdict (minT maxT : Int) : TableRow → Except Unit (Option ScheduleEntry)
  | TableRow.broken => Except.ok Option.none
  | TableRow.noWidget => Except.ok Option.none
  | TableRow.widgets ct st et tm notes =>
      let stS := pyStripS st
      let etS := pyStripS et
      let tmS := pyStripS tm
      let notesS := match notes with
        | some n => pyStripS n
        | Option.none => ""
      if ct = "" ∨ stS = "" ∨ etS = "" ∨ tmS = "" then
        Except.ok Option.none
      else if Constants.validate_time_format tmS then
        match pyIntS stS, pyIntS etS with
        | some a, some b =>
          if Constants.validate_temperature minT maxT a &&
             Constants.validate_temperature minT maxT b then
            Except.ok (some ⟨ct, a, b, tmS, notesS⟩)
          else Except.error ()
        | _, _ => Except.error ()
      else Except.error ()

/-- The entries of the rows that survive the loop, in table order. -/
def survivors (minT maxT : Int) (rows : List TableRow) : List ScheduleEntry :=
  rows.filterMap fun r =>
    match rowVerdict minT maxT r with
    | Except.ok o => o
    | Except.error _ => Option.none

end ScheduleWindow

/-! ## The schedule store (`save_schedule`, source lines 376-407) -/

/-- A stored row of a schedule table: the auto-assigned `Id` surrogate key,
the `Cycle` sequence number and the entry columns. -/
structure StoredRow where
  id : Nat
  cycle : Nat
  entry : ScheduleEntry
  deriving DecidableEq, Repr

/-- A schedule table: its autoincrement counter and its rows in insertion
order. -/
structure Table where
  nextId : Nat
  rows : List StoredRow
  deriving DecidableEq, Repr

/-- A freshly created table: sqlite autoincrement starts at 1. -/
def Table.empty : Table := ⟨1, []⟩

/-- Appending one `INSERT` to a table. -/
def Table.insertRow (t : Table) (cyc : Nat) (e : ScheduleEntry) : Table :=
  ⟨t.nextId + 1, t.rows ++ [⟨t.nextId, cyc, e⟩]⟩

/-- The durable database: an association from table name to table. -/
abbrev DB := List (String × Table)

/-- Find a table by name. -/
def DB.lookup (db : DB) (name : String) : Option Table :=
  match db with
  | [] => Option.none
  | (n, t) :: rest => if n = name then some t else DB.lookup rest name

/-- Replace the named table, or append it if absent. -/
def DB.update (db : DB) (name : String) (t : Table) : DB :=
  match db with
  | [] => [(name, t)]
  | (n, u) :: rest =>
      if n = name then (n, t) :: rest else (n, u) :: DB.update rest name t

/-- The `sqlite3.Error` values the store can raise, tagged by the statement
that raised them. -/
inductive SqliteError
  | connectError
  | createError
  | insertError (i : Nat)
  | commitError
  deriving DecidableEq, Repr

/-- Fault injection for the storage engine: which statement of a `save`
call raises `sqlite3.Error`.  `insertFails i` refers to the insert of the
`i`-th entry (1-based, the loop counter of `enumerate(entries, 1)`). -/
structure SaveFaults where
  connectFails : Bool
  createFails : Bool
  insertFails : Nat → Bool
  commitFails : Bool

/-- A fault-free storage engine. -/
def SaveFaults.noFault : SaveFaults := ⟨false, false, fun _ => false, false⟩

/-- A storage engine whose only fault is raising on the `i`-th insert. -/
def SaveFaults.insFault (i : Nat) : SaveFaults :=
  ⟨false, false, fun j => decide (j = i), false⟩

/-- The insert loop of `save_schedule` (`for i, entry in enumerate(entries, 1)`),
acting on the transaction-local table state. -/
def insertLoop (f : SaveFaults) : Table → Nat → List ScheduleEntry → Except SqliteError Table
  | t, _, [] => Except.ok t
  | t, i, e :: rest =>
      if f.insertFails i then Except.error (SqliteError.insertError i)
      else insertLoop f (t.insertRow i e) (i + 1) rest

/-- `save_schedule` (source lines 376-407): connect, `CREATE TABLE IF NOT
EXISTS`, insert the entries with 1-based cycle numbers, commit, close.  The
function body has no `return`, so a successful call returns Python `None`
(the `Option Bool` in the `ok` case); an `sqlite3.Error` is printed and
re-raised (`Except.error`).  The second component is the durable database
after the call: only `conn.commit()` publishes the transaction. -/
def save_schedule (name : String) (entries : List ScheduleEntry) (db : DB)
    (f : SaveFaults) : Except SqliteError (Option Bool) × DB :=
  if f.connectFails then (Except.error SqliteError.connectError, db)
  else if f.createFails then (Except.error SqliteError.createError, db)
  else
    match insertLoop f ((DB.lookup db name).getD Table.empty) 1 entries with
    | Except.error e => (Except.error e, db)
    | Except.ok t =>
        if f.commitFails then (Except.error SqliteError.commitError, db)
        else (Except.ok Option.none, DB.update db name t)

/-- The rows `save_schedule` appends for `entries`, starting at surrogate
key `id` and cycle number `cyc`. -/
def mkRows (id cyc : Nat) : List ScheduleEntry → List StoredRow
  | [] => []
  | e :: rest => ⟨id, cyc, e⟩ :: mkRows (id + 1) (cyc + 1) rest

/-- Insertion into a list sorted by ascending `Cycle`. -/
def insertByCycle (r : StoredRow) : List StoredRow → List StoredRow
  | [] => [r]
  | x :: xs => if r.cycle ≤ x.cycle then r :: x :: xs else x :: insertByCycle r xs

/-- Sort stored rows by ascending `Cycle`. -/
def sortByCycle : List StoredRow → List StoredRow
  | [] => []
  | x :: xs => insertByCycle x (sortByCycle xs)

/-- Modelled from the spec: `DatabaseManager.load_schedule` (module
`database` is not under `src/`).  Spec §4.3: `load(name)` returns the named
collection's entries ordered by `cycle_index` ascending. -/
def load_schedule (name : String) (db : DB) : List ScheduleEntry :=
  match DB.lookup db name with
  | Option.none => []
  | some t => (sortByCycle t.rows).map StoredRow.entry

/-- The named collection is absent or still empty ("empty or freshly
created"). -/
def freshFor (db : DB) (name : String) : Prop :=
  ∀ t, DB.lookup db name = some t → t.rows = []

/-- The table currently stored under `name`, a fresh one if absent; the
state `save_schedule` starts its insert loop from. -/
def priorTable (db : DB) (name : String) : Table :=
  (DB.lookup db name).getD Table.empty

/-- Concrete entries used to instantiate hypotheses of the theorems below. -/
def entRamp : ScheduleEntry := ⟨"Ramp", 20, 200, "01:30:00", ""⟩

/-- A second concrete entry. -/
def entSoak : ScheduleEntry := ⟨"Soak", 200, 200, "00:45:00", "hold"⟩

/-! ## Helper lemmas -/

/-- A minute/second group matches `[0-5]?\d` exactly when it is one or two
digits with numeric value at most 59. -/
theorem msShape_eq (l : List Char) :
    ScheduleWindow.msShape l =
      (lenOneOrTwo l && l.all isDigitChar && decide (fieldNat l ≤ 59)) := by
  rcases l with _ | ⟨c1, _ | ⟨c2, _ | ⟨c3, tl⟩⟩⟩
  · rfl
  all_goals
    rw [Bool.eq_iff_iff]
    simp [ScheduleWindow.msShape, lenOneOrTwo, isDigitChar, fieldNat, digitVal]
    try omega

/-- Unfolding the `String` constructor. -/
theorem data_mk (l : List Char) : (String.mk l).data = l := rfl

/-- The three field-shape checks plus range checks, regrouped into the
spec-side conjunction. -/
theorem fields_eq (h m sec : List Char) :
    ((ScheduleWindow.hoursShape h && ScheduleWindow.msShape m &&
        ScheduleWindow.msShape sec) &&
      (decide (fieldNat h ≤ 99) && decide (fieldNat m ≤ 59) &&
        decide (fieldNat sec ≤ 59))) =
    (lenOneOrTwo h && h.all isDigitChar && decide (fieldNat h ≤ 99) &&
     lenOneOrTwo m && m.all isDigitChar && decide (fieldNat m ≤ 59) &&
     lenOneOrTwo sec && sec.all isDigitChar && decide (fieldNat sec ≤ 59)) := by
  rw [msShape_eq, msShape_eq]
  unfold ScheduleWindow.hoursShape
  rw [Bool.eq_iff_iff]
  simp only [Bool.and_eq_true]
  tauto

/-- The source time validator agrees with the spec-side reading of the
pattern on every string. -/
theorem validate_time_format_eq_spec (s : String) :
    ScheduleWindow.validate_time_format s = specTimeValid s := by
  by_cases hs : s = ""
  · subst hs; rfl
  · unfold ScheduleWindow.validate_time_format specTimeValid
      Constants.validate_time_format ScheduleWindow.timeMatch
    rw [if_neg hs, data_mk]
    rcases hsp : splitColon (stripTrailingNewline s.data) with
      _ | ⟨h, _ | ⟨m, _ | ⟨sec, _ | ⟨d, tl⟩⟩⟩⟩ <;> simp only [hsp]
    rw [← fields_eq h m sec]
    have hz : ∀ n : Nat, decide (0 ≤ n) = true := fun n =>
      decide_eq_true (Nat.zero_le n)
    cases hb : ScheduleWindow.hoursShape h && ScheduleWindow.msShape m &&
      ScheduleWindow.msShape sec <;>
      simp [hz]

/-! ## Claim C2 -/

/-- Claim C2, counterexample: the claim says the time validator returns
false for "24:00:00", but `ScheduleWindow.validate_time_format` returns
true there — the hours group `\d{1,2}` accepts any value up to 99. -/
theorem c2_counterexample :
    ScheduleWindow.validate_time_format "24:00:00" = true := by decide

/-- Claim C2, amended: the time validator returns true for "24:00:00"
(hours up to 99 are accepted), false for "00:60:00", true for "00:59:59",
"99:59:59" and "5:5:5"; in general it returns false on the empty string and
accepts exactly the strings that — after discounting the single trailing
newline the regex end anchor tolerates — have the form H(H):M(M):S(S) with
all fields in range (hours 0-99, minutes and seconds 0-59). -/
theorem c2_amended :
    ScheduleWindow.validate_time_format "24:00:00" = true ∧
    ScheduleWindow.validate_time_format "00:60:00" = false ∧
    ScheduleWindow.validate_time_format "00:59:59" = true ∧
    ScheduleWindow.validate_time_format "99:59:59" = true ∧
    ScheduleWindow.validate_time_format "5:5:5" = true ∧
    ScheduleWindow.validate_time_format "" = false ∧
    ∀ s, ScheduleWindow.validate_time_format s = specTimeValid s :=
  ⟨by decide, by decide, by decide, by decide, by decide, by decide,
    validate_time_format_eq_spec⟩

/-! ## Claims about the entry collector -/

/-- Claim C6: a row with any of cycle type, start temperature, end
temperature or duration empty is silently skipped — it produces no
rejection, contributes no entry (the accumulator is untouched, so it
consumes no cycle index), and the remaining rows are processed as if it
were not there. -/
theorem c6_empty_row_skipped (minT maxT : Int) (ct st et tm : String)
    (notes : Option String) (row : Nat) (rest : List TableRow)
    (acc : List ScheduleEntry)
    (hskip : ct = "" ∨ pyStripS st = "" ∨ pyStripS et = "" ∨ pyStripS tm = "") :
    ScheduleWindow.processRows minT maxT row
        (TableRow.widgets ct st et tm notes :: rest) acc =
      ScheduleWindow.processRows minT maxT (row + 1) rest acc := by
  simp only [ScheduleWindow.processRows]
  rw [if_pos hskip]

/-- Claim C6, witness. -/
theorem c6_empty_row_skipped_witness :
    ScheduleWindow.processRows 0 500 0
        [TableRow.widgets "" "1" "2" "3" Option.none] [] =
      ScheduleWindow.processRows 0 500 1 [] [] :=
  c6_empty_row_skipped 0 500 "" "1" "2" "3" Option.none 0 [] [] (Or.inl rfl)

/-- Claim C10: a row whose widget extraction raises an unexpected exception
is logged and silently skipped: the loop continues with the remaining rows,
the accumulator is untouched and no rejection is reported. -/
theorem c10_broken_row_skipped (minT maxT : Int) (row : Nat)
    (rest : List TableRow) (acc : List ScheduleEntry) :
    ScheduleWindow.processRows minT maxT row (TableRow.broken :: rest) acc =
      ScheduleWindow.processRows minT maxT (row + 1) rest acc := rfl

/-- Claim C7: the collection is fail-fast on duration validation — the
first non-skipped row whose duration fails the time validator makes the
whole collection abort with the invalid-time rejection carrying that row's
index, whatever rows follow and whatever entries were already collected;
and on the spec's scenario, a single "bad-time" row rejects with row 0. -/
theorem c7_failfast_invalid_time :
    (∀ (minT maxT : Int) (row : Nat) (ct st et tm : String)
        (notes : Option String) (rest : List TableRow)
        (acc : List ScheduleEntry),
      ct ≠ "" → pyStripS st ≠ "" → pyStripS et ≠ "" → pyStripS tm ≠ "" →
      Constants.validate_time_format (pyStripS tm) = false →
      ScheduleWindow.processRows minT maxT row
          (TableRow.widgets ct st et tm notes :: rest) acc =
        Except.error (Rejection.invalidTime row)) ∧
    ∀ minT maxT : Int,
      ScheduleWindow.validate_and_collect_entries minT maxT
          [TableRow.widgets "Soak" "20" "200" "bad-time" (some "")] =
        Except.error (Rejection.invalidTime 0) := by
  have main : ∀ (minT maxT : Int) (row : Nat) (ct st et tm : String)
      (notes : Option String) (rest : List TableRow)
      (acc : List ScheduleEntry),
      ct ≠ "" → pyStripS st ≠ "" → pyStripS et ≠ "" → pyStripS tm ≠ "" →
      Constants.validate_time_format (pyStripS tm) = false →
      ScheduleWindow.processRows minT maxT row
          (TableRow.widgets ct st et tm notes :: rest) acc =
        Except.error (Rejection.invalidTime row) := by
    intro minT maxT row ct st et tm notes rest acc h1 h2 h3 h4 hv
    simp only [ScheduleWindow.processRows]
    rw [if_neg (by simp [h1, h2, h3, h4]), if_neg (by simp [hv])]
  refine ⟨main, fun minT maxT => ?_⟩
  have h := main minT maxT 0 "Soak" "20" "200" "bad-time" (some "") [] []
    (by decide) (by decide) (by decide) (by decide) (by decide)
  simp [ScheduleWindow.validate_and_collect_entries, h]

/-- Claim C7, witness. -/
theorem c7_failfast_invalid_time_witness :
    ScheduleWindow.processRows 0 500 0
        [TableRow.widgets "Soak" "20" "200" "bad-time" (some "")] [] =
      Except.error (Rejection.invalidTime 0) :=
  c7_failfast_invalid_time.1 0 500 0 "Soak" "20" "200" "bad-time" (some "")
    [] [] (by decide) (by decide) (by decide) (by decide) (by decide)

/-- Claim C8: for a non-skipped row with a valid duration, a start or end
temperature that fails integer parsing aborts with the
invalid-temperature-format rejection at that row; if both parse but either
value fails the range check the collection aborts with the
invalid-temperature rejection at that row; and the bounds `MIN_TEMP` and
`MAX_TEMP` themselves are accepted by the temperature validator. -/
theorem c8_temperature_checks :
    (∀ (minT maxT : Int) (row : Nat) (ct st et tm : String)
        (notes : Option String) (rest : List TableRow)
        (acc : List ScheduleEntry),
      ct ≠ "" → pyStripS st ≠ "" → pyStripS et ≠ "" → pyStripS tm ≠ "" →
      Constants.validate_time_format (pyStripS tm) = true →
      ((pyIntS (pyStripS st) = Option.none ∨ pyIntS (pyStripS et) = Option.none) →
        ScheduleWindow.processRows minT maxT row
            (TableRow.widgets ct st et tm notes :: rest) acc =
          Except.error (Rejection.invalidTemperatureFormat row)) ∧
      (∀ a b : Int, pyIntS (pyStripS st) = some a →
        pyIntS (pyStripS et) = some b →
        (Constants.validate_temperature minT maxT a &&
          Constants.validate_temperature minT maxT b) = false →
        ScheduleWindow.processRows minT maxT row
            (TableRow.widgets ct st et tm notes :: rest) acc =
          Except.error (Rejection.invalidTemperature row))) ∧
    ∀ minT maxT : Int, minT ≤ maxT →
      Constants.validate_temperature minT maxT minT = true ∧
      Constants.validate_temperature minT maxT maxT = true := by
  constructor
  · intro minT maxT row ct st et tm notes rest acc h1 h2 h3 h4 hv
    constructor
    · intro hpn
      simp only [ScheduleWindow.processRows]
      rw [if_neg (by simp [h1, h2, h3, h4]), if_pos (by simp [hv])]
      rcases hpn with h | h
      · rw [h]
      · rcases hfst : pyIntS (pyStripS st) with _ | a <;> rw [h]
    · intro a b ha hb hfalse
      simp only [ScheduleWindow.processRows]
      rw [if_neg (by simp [h1, h2, h3, h4]), if_pos (by simp [hv]), ha, hb]
      simp [hfalse]
  · intro minT maxT hle
    constructor <;> simp [Constants.validate_temperature, hle]

/-- Claim C8, witness. -/
theorem c8_temperature_checks_witness :
    ScheduleWindow.processRows 0 500 0
        [TableRow.widgets "Ramp" "x" "200" "01:30:00" Option.none] [] =
      Except.error (Rejection.invalidTemperatureFormat 0) :=
  (c8_temperature_checks.1 0 500 0 "Ramp" "x" "200" "01:30:00" Option.none
    [] [] (by decide) (by decide) (by decide) (by decide) (by decide)).1
    (Or.inl (by decide))

/-- One loop step agrees with the isolated row verdict when the row does
not abort: the loop moves to the next row index and appends the verdict's
entry, if any, to the accumulator. -/
theorem processRows_cons_verdict (minT maxT : Int) (row : Nat)
    (r : TableRow) (rest : List TableRow) (acc : List ScheduleEntry)
    (o : Option ScheduleEntry)
    (hvo : ScheduleWindow.rowVerdict minT maxT r = Except.ok o) :
    ScheduleWindow.processRows minT maxT row (r :: rest) acc =
      ScheduleWindow.processRows minT maxT (row + 1) rest (acc ++ o.toList) := by
  cases r with
  | broken =>
    injection hvo with h
    subst h
    simp [ScheduleWindow.processRows]
  | noWidget =>
    injection hvo with h
    subst h
    simp [ScheduleWindow.processRows]
  | widgets ct st et tm notes =>
    simp only [ScheduleWindow.rowVerdict] at hvo
    simp only [ScheduleWindow.processRows]
    split at hvo
    next hskip =>
      injection hvo with h
      subst h
      rw [if_pos hskip]
      simp
    next hskip =>
      split at hvo
      next hv =>
        rw [if_neg hskip, if_pos hv]
        split at hvo
        next a b hfst hsnd =>
          split at hvo
          next htv =>
            injection hvo with h
            subst h
            rw [if_pos htv]
            simp
          next htv =>
            exact absurd hvo (by simp)
        next x y hne =>
          exact absurd hvo (by simp)
      next hv =>
        exact absurd hvo (by simp)

/-- Prepending a row adds its verdict's entry, if any, in front of the
survivors of the remaining rows. -/
theorem survivors_cons (minT maxT : Int) (r : TableRow) (rest : List TableRow)
    (o : Option ScheduleEntry)
    (hvo : ScheduleWindow.rowVerdict minT maxT r = Except.ok o) :
    ScheduleWindow.survivors minT maxT (r :: rest) =
      o.toList ++ ScheduleWindow.survivors minT maxT rest := by
  cases o with
  | none => simp [ScheduleWindow.survivors, List.filterMap_cons, hvo]
  | some e => simp [ScheduleWindow.survivors, List.filterMap_cons, hvo]

/-- When no row aborts, the loop returns the accumulator followed by the
surviving entries in table order. -/
theorem processRows_ok (minT maxT : Int) (rows : List TableRow) :
    ∀ (row : Nat) (acc : List ScheduleEntry),
      (∀ r ∈ rows, ScheduleWindow.rowVerdict minT maxT r ≠ Except.error ()) →
      ScheduleWindow.processRows minT maxT row rows acc =
        Except.ok (acc ++ ScheduleWindow.survivors minT maxT rows) := by
  induction rows with
  | nil =>
    intro row acc _
    simp [ScheduleWindow.processRows, ScheduleWindow.survivors]
  | cons r rest ih =>
    intro row acc hall
    have hr := hall r (List.mem_cons_self r rest)
    have hrest : ∀ x ∈ rest, ScheduleWindow.rowVerdict minT maxT x ≠ Except.error () :=
      fun x hx => hall x (List.mem_cons_of_mem r hx)
    obtain ⟨o, hvo⟩ : ∃ o, ScheduleWindow.rowVerdict minT maxT r = Except.ok o := by
      cases hvr : ScheduleWindow.rowVerdict minT maxT r with
      | error e => cases e; exact absurd hvr hr
      | ok o => exact ⟨o, rfl⟩
    rw [processRows_cons_verdict minT maxT row r rest acc o hvo,
      ih (row + 1) (acc ++ o.toList) hrest,
      survivors_cons minT maxT r rest o hvo]
    simp

/-! ## Store lemmas -/

/-- Looking up a name right after storing a table under it. -/
theorem DB.lookup_update_self (db : DB) (name : String) (t : Table) :
    DB.lookup (DB.update db name t) name = some t := by
  induction db with
  | nil => simp [DB.update, DB.lookup]
  | cons p rest ih =>
    obtain ⟨n, u⟩ := p
    by_cases hn : n = name
    · simp [DB.update, DB.lookup, hn]
    · simp [DB.update, DB.lookup, hn, ih]

/-- A fault-free insert loop appends exactly the rows of its entries, with
consecutive surrogate keys and cycle numbers. -/
theorem insertLoop_noFault (es : List ScheduleEntry) :
    ∀ (t : Table) (i : Nat),
      insertLoop SaveFaults.noFault t i es =
        Except.ok ⟨t.nextId + es.length, t.rows ++ mkRows t.nextId i es⟩ := by
  induction es with
  | nil =>
    intro t i
    simp [insertLoop, mkRows]
  | cons e rest ih =>
    intro t i
    have hf : SaveFaults.noFault.insertFails i = false := rfl
    simp only [insertLoop, hf, Bool.false_eq_true, if_false]
    rw [ih]
    simp only [Table.insertRow, mkRows, List.append_assoc,
      List.singleton_append, List.length_cons]
    rw [Nat.add_assoc, Nat.add_comm 1 rest.length]

/-- Whenever the insert loop returns a table it has inserted every entry. -/
theorem insertLoop_ok (es : List ScheduleEntry) :
    ∀ (f : SaveFaults) (t : Table) (i : Nat) (t' : Table),
      insertLoop f t i es = Except.ok t' →
      t' = ⟨t.nextId + es.length, t.rows ++ mkRows t.nextId i es⟩ := by
  induction es with
  | nil =>
    intro f t i t' h
    simp only [insertLoop] at h
    injection h with h
    subst h
    cases t
    simp [mkRows]
  | cons e rest ih =>
    intro f t i t' h
    simp only [insertLoop] at h
    split at h
    · exact absurd h (by simp)
    · have := ih f (t.insertRow i e) (i + 1) t' h
      rw [this]
      simp only [Table.insertRow, mkRows, Table.mk.injEq, List.append_assoc,
        List.singleton_append, List.length_cons]
      refine ⟨by omega, ?_⟩
      trivial

/-- When the engine raises on the `i`-th insert and at least `i` entries
remain, the loop raises exactly that error. -/
theorem insertLoop_insFault (es : List ScheduleEntry) :
    ∀ (t : Table) (j i : Nat), j ≤ i → i < j + es.length →
      insertLoop (SaveFaults.insFault i) t j es =
        Except.error (SqliteError.insertError i) := by
  induction es with
  | nil =>
    intro t j i h1 h2
    simp at h2
    omega
  | cons e rest ih =>
    intro t j i h1 h2
    by_cases hj : j = i
    · subst hj
      simp [insertLoop, SaveFaults.insFault]
    · have hfj : (SaveFaults.insFault i).insertFails j = false := by
        simp [SaveFaults.insFault, hj]
      simp only [insertLoop, hfj, Bool.false_eq_true, if_false]
      apply ih
      · omega
      · simp at h2
        omega

/-- A fault-free `save_schedule` call commits exactly the appended rows. -/
theorem save_schedule_noFault (name : String) (entries : List ScheduleEntry)
    (db : DB) :
    save_schedule name entries db SaveFaults.noFault =
      (Except.ok Option.none,
        DB.update db name
          ⟨(priorTable db name).nextId + entries.length,
            (priorTable db name).rows ++
              mkRows (priorTable db name).nextId 1 entries⟩) := by
  simp only [save_schedule]
  rw [insertLoop_noFault]
  simp [SaveFaults.noFault, priorTable]

/-- A `save_schedule` call either raises and leaves the durable database
untouched, or succeeds, returns `None`, and commits every entry. -/
theorem save_schedule_cases (name : String) (entries : List ScheduleEntry)
    (db : DB) (f : SaveFaults) :
    (∃ e, save_schedule name entries db f = (Except.error e, db)) ∨
    save_schedule name entries db f =
      (Except.ok Option.none,
        DB.update db name
          ⟨(priorTable db name).nextId + entries.length,
            (priorTable db name).rows ++
              mkRows (priorTable db name).nextId 1 entries⟩) := by
  simp only [save_schedule]
  by_cases hc : f.connectFails = true
  · exact Or.inl ⟨_, by rw [if_pos hc]⟩
  · rw [if_neg hc]
    by_cases hcr : f.createFails = true
    · exact Or.inl ⟨_, by rw [if_pos hcr]⟩
    · rw [if_neg hcr]
      cases hins : insertLoop f ((DB.lookup db name).getD Table.empty) 1 entries with
      | error e => exact Or.inl ⟨e, rfl⟩
      | ok t =>
        have ht := insertLoop_ok entries f _ 1 t hins
        by_cases hcm : f.commitFails = true
        · exact Or.inl ⟨SqliteError.commitError, by simp [hcm]⟩
        · right
          simp [hcm, ht, priorTable]

/-- A fault on the `i`-th insert makes the whole `save_schedule` call raise
that error and leaves the durable database unchanged. -/
theorem save_schedule_insFault (name : String) (entries : List ScheduleEntry)
    (db : DB) (i : Nat) (h1 : 1 ≤ i) (h2 : i ≤ entries.length) :
    save_schedule name entries db (SaveFaults.insFault i) =
      (Except.error (SqliteError.insertError i), db) := by
  simp only [save_schedule]
  rw [insertLoop_insFault entries _ 1 i h1 (by omega)]
  simp [SaveFaults.insFault]

/-- The rows appended by a save carry the entries unchanged, in order. -/
theorem mkRows_map_entry (es : List ScheduleEntry) :
    ∀ id cyc : Nat, (mkRows id cyc es).map StoredRow.entry = es := by
  induction es with
  | nil => intro id cyc; simp [mkRows]
  | cons e rest ih => intro id cyc; simp [mkRows, ih]

/-- The cycle numbers of the appended rows are consecutive from `cyc`. -/
theorem mkRows_map_cycle (es : List ScheduleEntry) :
    ∀ id cyc : Nat, (mkRows id cyc es).map StoredRow.cycle =
      List.range' cyc es.length := by
  induction es with
  | nil => intro id cyc; simp [mkRows]
  | cons e rest ih => intro id cyc; simp [mkRows, ih, List.range']

/-- The cycle numbers of freshly appended rows ascend. -/
theorem chain_le_mkRows (es : List ScheduleEntry) :
    ∀ id cyc : Nat,
      List.Chain' (fun a b => a.cycle ≤ b.cycle) (mkRows id cyc es) := by
  induction es with
  | nil => intro id cyc; simp [mkRows]
  | cons e rest ih =>
    intro id cyc
    rw [mkRows, List.chain'_cons']
    refine ⟨?_, ih (id + 1) (cyc + 1)⟩
    intro y hy
    cases rest with
    | nil => simp [mkRows] at hy
    | cons e2 r2 =>
      simp only [mkRows, List.head?_cons, Option.mem_def, Option.some.injEq] at hy
      rw [← hy]
      simp

/-- Sorting a list whose cycles already ascend changes nothing. -/
theorem sortByCycle_sorted_id (l : List StoredRow)
    (h : List.Chain' (fun a b => a.cycle ≤ b.cycle) l) : sortByCycle l = l := by
  induction l with
  | nil => rfl
  | cons x xs ih =>
    rw [List.chain'_cons'] at h
    obtain ⟨hx, hxs⟩ := h
    rw [sortByCycle, ih hxs]
    cases xs with
    | nil => rfl
    | cons y ys =>
      have hle : x.cycle ≤ y.cycle := hx y rfl
      rw [insertByCycle, if_pos hle]

/-! ## Claims about the store -/

/-- Claim C1: saving a non-empty entry list under a name into an absent or
still-empty collection and loading it back returns the input entries, in
cycle order. -/
theorem c1_round_trip (name : String) (entries : List ScheduleEntry)
    (db : DB) (_hne : entries ≠ []) (hfresh : freshFor db name) :
    ∃ db', save_schedule name entries db SaveFaults.noFault =
        (Except.ok Option.none, db') ∧
      load_schedule name db' = entries := by
  have h1 := save_schedule_noFault name entries db
  have hrows : (priorTable db name).rows = [] := by
    unfold priorTable
    cases hl : DB.lookup db name with
    | none => rfl
    | some t =>
      simp only [Option.getD_some]
      exact hfresh t hl
  rw [hrows] at h1
  refine ⟨_, h1, ?_⟩
  unfold load_schedule
  rw [DB.lookup_update_self]
  simp only [List.nil_append]
  rw [sortByCycle_sorted_id _ (chain_le_mkRows entries _ 1), mkRows_map_entry]

/-- Claim C1, witness. -/
theorem c1_round_trip_witness :
    ∃ db', save_schedule "T1" [entRamp] [] SaveFaults.noFault =
        (Except.ok Option.none, db') ∧
      load_schedule "T1" db' = [entRamp] :=
  c1_round_trip "T1" [entRamp] [] (by decide)
    (fun t ht => by simp [DB.lookup] at ht)

/-- Claim C3: saving twice under the same name never deletes rows — the
named collection afterwards holds the prior rows followed by the first
list's rows followed by the second list's rows. -/
theorem c3_save_appends (name : String) (e1 e2 : List ScheduleEntry) (db : DB) :
    ∃ db1 db2 t2,
      save_schedule name e1 db SaveFaults.noFault =
        (Except.ok Option.none, db1) ∧
      save_schedule name e2 db1 SaveFaults.noFault =
        (Except.ok Option.none, db2) ∧
      DB.lookup db2 name = some t2 ∧
      t2.rows = (priorTable db name).rows ++
        mkRows (priorTable db name).nextId 1 e1 ++
        mkRows ((priorTable db name).nextId + e1.length) 1 e2 := by
  have h1 := save_schedule_noFault name e1 db
  have hprior1 : priorTable
      (DB.update db name
        ⟨(priorTable db name).nextId + e1.length,
          (priorTable db name).rows ++
            mkRows (priorTable db name).nextId 1 e1⟩) name =
      ⟨(priorTable db name).nextId + e1.length,
        (priorTable db name).rows ++ mkRows (priorTable db name).nextId 1 e1⟩ := by
    simp [priorTable, DB.lookup_update_self]
  have h2 := save_schedule_noFault name e2
    (DB.update db name
      ⟨(priorTable db name).nextId + e1.length,
        (priorTable db name).rows ++ mkRows (priorTable db name).nextId 1 e1⟩)
  rw [hprior1] at h2
  refine ⟨_, _, _, h1, h2, DB.lookup_update_self _ _ _, ?_⟩
  simp [List.append_assoc]

/-- Claim C4: each save is all-or-nothing — any raised storage error leaves
the durable database exactly as it was (no partial prefix of the entries is
committed), a fault-free run commits every entry, and a fault injected at
any insert position makes the call raise. -/
theorem c4_save_atomic (name : String) (entries : List ScheduleEntry) (db : DB) :
    (∀ f : SaveFaults,
      (∃ e, save_schedule name entries db f = (Except.error e, db)) ∨
      save_schedule name entries db f =
        (Except.ok Option.none,
          DB.update db name
            ⟨(priorTable db name).nextId + entries.length,
              (priorTable db name).rows ++
                mkRows (priorTable db name).nextId 1 entries⟩)) ∧
    ∀ i : Nat, 1 ≤ i → i ≤ entries.length →
      save_schedule name entries db (SaveFaults.insFault i) =
        (Except.error (SqliteError.insertError i), db) :=
  ⟨fun f => save_schedule_cases name entries db f,
    fun i h1 h2 => save_schedule_insFault name entries db i h1 h2⟩

/-- Claim C4, witness. -/
theorem c4_save_atomic_witness :
    save_schedule "T1" [entRamp, entSoak] [] (SaveFaults.insFault 2) =
      (Except.error (SqliteError.insertError 2), []) :=
  (c4_save_atomic "T1" [entRamp, entSoak] []).2 2 (by decide) (by decide)

/-- Claim C5, counterexample: on a concrete fault-free save the function
returns Python `None` — not `true` — and on a concrete mid-insert storage
fault it raises the `sqlite3.Error` instead of returning `false`. -/
theorem c5_counterexample :
    (save_schedule "T1" [entRamp] [] SaveFaults.noFault).1 =
      Except.ok Option.none ∧
    (Except.ok Option.none : Except SqliteError (Option Bool)) ≠
      Except.ok (some true) ∧
    (save_schedule "T1" [entRamp] [] (SaveFaults.insFault 1)).1 =
      Except.error (SqliteError.insertError 1) :=
  ⟨rfl, by simp, rfl⟩

/-- Claim C5, amended: `save_schedule` has no boolean result — a
successful call returns Python `None`, and a storage error raised during
the transaction (here: during any insert) is logged and re-raised to the
caller rather than reported as `false`. -/
theorem c5_amended :
    (∀ (name : String) (entries : List ScheduleEntry) (db : DB)
        (f : SaveFaults) (r : Option Bool) (db' : DB),
      save_schedule name entries db f = (Except.ok r, db') →
      r = Option.none) ∧
    ∀ (name : String) (entries : List ScheduleEntry) (db : DB) (i : Nat),
      1 ≤ i → i ≤ entries.length →
      (save_schedule name entries db (SaveFaults.insFault i)).1 =
        Except.error (SqliteError.insertError i) := by
  constructor
  · intro name entries db f r db' h
    rcases save_schedule_cases name entries db f with ⟨e, he⟩ | hok
    · rw [he] at h
      exact absurd h (by simp)
    · rw [hok] at h
      injection h with h1 h2
      injection h1 with h1
      exact h1.symm
  · intro name entries db i h1 h2
    rw [save_schedule_insFault name entries db i h1 h2]

/-- Claim C5, witness. -/
theorem c5_amended_witness :
    (save_schedule "T1" [entRamp] [] (SaveFaults.insFault 1)).1 =
      Except.error (SqliteError.insertError 1) :=
  c5_amended.2 "T1" [entRamp] [] 1 (by decide) (by decide)

/-- Claim C9: when every row either skips or validates, the collector
returns the surviving entries in their original table order, and saving
them into a fresh collection stores them with cycle numbers exactly
1, 2, ..., N in that order. -/
theorem c9_order_and_cycles (minT maxT : Int) (rows : List TableRow)
    (name : String) (db : DB)
    (hall : ∀ r ∈ rows, ScheduleWindow.rowVerdict minT maxT r ≠ Except.error ())
    (hne : ScheduleWindow.survivors minT maxT rows ≠ [])
    (hfresh : DB.lookup db name = Option.none) :
    ScheduleWindow.validate_and_collect_entries minT maxT rows =
      Except.ok (ScheduleWindow.survivors minT maxT rows) ∧
    ∃ db' t,
      save_schedule name (ScheduleWindow.survivors minT maxT rows) db
          SaveFaults.noFault = (Except.ok Option.none, db') ∧
      DB.lookup db' name = some t ∧
      t.rows.map StoredRow.cycle =
        List.range' 1 (ScheduleWindow.survivors minT maxT rows).length ∧
      t.rows.map StoredRow.entry = ScheduleWindow.survivors minT maxT rows := by
  have hpr := processRows_ok minT maxT rows 0 [] hall
  constructor
  · unfold ScheduleWindow.validate_and_collect_entries
    rw [hpr]
    simp only [List.nil_append]
  · have h1 := save_schedule_noFault name
      (ScheduleWindow.survivors minT maxT rows) db
    have hpt : priorTable db name = Table.empty := by
      simp [priorTable, hfresh]
    rw [hpt] at h1
    refine ⟨_, _, h1, DB.lookup_update_self _ _ _, ?_, ?_⟩
    · simp [Table.empty, mkRows_map_cycle]
    · simp [Table.empty, mkRows_map_entry]

/-- Claim C9, witness. -/
theorem c9_order_and_cycles_witness :
    ScheduleWindow.validate_and_collect_entries 0 500
        [TableRow.widgets "Ramp" "20" "200" "01:30:00" (some ""),
          TableRow.widgets "" "" "" "" (some "")] =
      Except.ok (ScheduleWindow.survivors 0 500
        [TableRow.widgets "Ramp" "20" "200" "01:30:00" (some ""),
          TableRow.widgets "" "" "" "" (some "")]) ∧
    ∃ db' t,
      save_schedule "T1" (ScheduleWindow.survivors 0 500
          [TableRow.widgets "Ramp" "20" "200" "01:30:00" (some ""),
            TableRow.widgets "" "" "" "" (some "")]) []
          SaveFaults.noFault = (Except.ok Option.none, db') ∧
      DB.lookup db' "T1" = some t ∧
      t.rows.map StoredRow.cycle =
        List.range' 1 (ScheduleWindow.survivors 0 500
          [TableRow.widgets "Ramp" "20" "200" "01:30:00" (some ""),
            TableRow.widgets "" "" "" "" (some "")]).length ∧
      t.rows.map StoredRow.entry = ScheduleWindow.survivors 0 500
        [TableRow.widgets "Ramp" "20" "200" "01:30:00" (some ""),
          TableRow.widgets "" "" "" "" (some "")] :=
  c9_order_and_cycles 0 500
    [TableRow.widgets "Ramp" "20" "200" "01:30:00" (some ""),
      TableRow.widgets "" "" "" "" (some "")] "T1" []
    (by decide) (by decide) rfl

end SmartFurnace
